import Mathlib

/-!
Shallow embedding of the hasura/promptql-posthog connector.

The repository exposes three operations (`run_posthog_sql`,
`list_posthog_dashboards`, `get_posthog_insight`), each of which reads
configuration from the environment, issues one HTTP request (or a
paginated sequence of requests for the dashboard lister), and reshapes
the upstream JSON into a flat output record.  The HTTP transport is
modelled as a value of `UpstreamResult` handed to the operation (the
response the single fetch produced), and for the paginated lister as a
function from URL to `UpstreamResult` plus a fuel bound that models the
number of loop iterations the unbounded `while` loop is allowed to take
(`none` = the loop has not terminated within that many iterations).
-/

/-- JSON-like values, used to model `JSON.stringify` and the JSON value
each field of a returned object literal carries on the wire. -/
inductive JValue where
  | null
  | bool (b : Bool)
  | num (q : Rat)
  | str (s : String)
  | arr (elems : List JValue)
  | obj (fields : List (String × JValue))

/-- The double-quote character. -/
def dquoteC : Char := Char.ofNat 34

/-- The backslash character. -/
def backslashC : Char := Char.ofNat 92

/-- The single-quote character. -/
def squoteC : Char := Char.ofNat 39

/-- Minimal JSON string escaping (quote and backslash), as
`JSON.stringify` performs on the characters relevant here. -/
def escapeChar (c : Char) : List Char :=
  if c = dquoteC ∨ c = backslashC then [backslashC, c] else [c]

/-- A JSON string literal: quoted and escaped. -/
def quoteJson (s : String) : String :=
  String.mk (dquoteC :: (s.data.flatMap escapeChar ++ [dquoteC]))

mutual
/-- Model of `JSON.stringify` on our JSON values.  Number formatting is
modelled with `Rat`'s `toString`; no claim depends on the exact digits. -/
def jsonStringify : JValue → String
  | .null => "null"
  | .bool true => "true"
  | .bool false => "false"
  | .num q => toString q
  | .str s => quoteJson s
  | .arr l => "[" ++ String.intercalate "," (jsonStringifyList l) ++ "]"
  | .obj fs => "\x7b" ++ String.intercalate "," (jsonStringifyFields fs) ++ "\x7d"

/-- Mapping of `jsonStringify` over a list of values. -/
def jsonStringifyList : List JValue → List String
  | [] => []
  | v :: vs => jsonStringify v :: jsonStringifyList vs

/-- Mapping of `jsonStringify` over the fields of an object. -/
def jsonStringifyFields : List (String × JValue) → List String
  | [] => []
  | (k, v) :: fs => (quoteJson k ++ ":" ++ jsonStringify v) :: jsonStringifyFields fs
end

/-- The process environment as each operation reads it:
`process.env.POSTHOG_API_KEY`, `process.env.POSTHOG_PROJECT_ID`,
`process.env.POSTHOG_HOST`.  `none` models an unset variable. -/
structure Env where
  POSTHOG_API_KEY : Option String
  POSTHOG_PROJECT_ID : Option String
  POSTHOG_HOST : Option String
deriving DecidableEq

/-- JavaScript truthiness of a string-or-undefined value: `undefined`
and the empty string are falsy (`if (!API_KEY) ...`). -/
def truthy : Option String → Bool
  | none => false
  | some s => s != ""

/-- Resolved configuration held by one invocation. -/
structure Config where
  apiKey : String
  projectId : String
  host : String
deriving DecidableEq

/-- Model of `process.env.POSTHOG_HOST || 'us.posthog.com'`: the default applies
when the variable is unset or set to a falsy (empty) string. -/
def resolveHost : Option String → String
  | some s => if s != "" then s else "us.posthog.com"
  | none => "us.posthog.com"

/-- The configuration block each of the three source functions repeats
verbatim: read the three variables, throw `UnprocessableContent` if the
API key is falsy, then if the project id is falsy. -/
def resolveConfig (env : Env) : Except String Config :=
  if truthy env.POSTHOG_API_KEY then
    if truthy env.POSTHOG_PROJECT_ID then
      .ok ⟨env.POSTHOG_API_KEY.getD "", env.POSTHOG_PROJECT_ID.getD "",
           resolveHost env.POSTHOG_HOST⟩
    else .error "POSTHOG_PROJECT_ID environment variable is required"
  else .error "POSTHOG_API_KEY environment variable is required"

/-- The transport's answer to one fetch: either a non-ok HTTP status
with the response body text (`!response.ok`), or a parsed JSON body of
the expected shape. -/
inductive UpstreamResult (α : Type) where
  | httpError (status : Nat) (bodyText : String)
  | okData (data : α)

/-- The message of the `Error` thrown on a non-ok response:
`` `PostHog API error: ${response.status} - ${errorText}` ``. -/
def httpErrorMessage (status : Nat) (body : String) : String :=
  "PostHog API error: " ++ toString status ++ " - " ++ body

/-! ## run_posthog_sql -/

/-- One entry of the upstream `timings` array. -/
structure Timing where
  k : String
  t : Rat
deriving DecidableEq

/-- The upstream response shape `PostHogAPIResponse`; every field is
optional.  A row of `results` (an `any[]`) is modelled as a `JValue`. -/
structure PostHogAPIResponse where
  columns : Option (List String) := none
  results : Option (List JValue) := none
  hasMore : Option Bool := none
  limit : Option Int := none
  offset : Option Int := none
  is_cached : Option Bool := none
  timings : Option (List Timing) := none

/-- The output shape `PostHogQueryResponse` of `run_posthog_sql`. -/
structure PostHogQueryResponse where
  columns : List String
  results : List String
  hasMore : Bool
  limit : Option Int
  offset : Option Int
  isCached : Bool
  executionTime : Option Rat
deriving DecidableEq

/-- The query endpoint `` `https://${HOST}/api/projects/${PROJECT_ID}/query` `` -/
def queryUrl (cfg : Config) : String :=
  "https://" ++ cfg.host ++ "/api/projects/" ++ cfg.projectId ++ "/query"

/-- The success-path mapping of `run_posthog_sql`: the object literal it
returns, field by field (`??` defaults, row stringification, and the
`timings` scan for the `"query"` entry). -/
def mapQueryResponse (data : PostHogAPIResponse) : PostHogQueryResponse :=
  { columns := data.columns.getD []
    results := (data.results.getD []).map jsonStringify
    hasMore := data.hasMore.getD false
    limit := data.limit
    offset := data.offset
    isCached := data.is_cached.getD false
    -- data.timings?.find(t => t.k === 'query')?.t ?? null
    executionTime :=
      data.timings.bind (fun ts => (ts.find? (fun t => t.k == "query")).map (·.t)) }

/-- Model of `run_posthog_sql(sql)`, with the transport's single response passed
in.  Config errors are thrown before the `try` block (no prefix); the
error thrown on a non-ok status is re-raised by the `catch` block as
`"PostHog query failed: " + message`. -/
def run_posthog_sql (env : Env) (sql : String)
    (resp : UpstreamResult PostHogAPIResponse) : Except String PostHogQueryResponse :=
  match resolveConfig env with
  | .error e => .error e
  | .ok _cfg =>
    match resp with
    | .httpError s b => .error ("PostHog query failed: " ++ httpErrorMessage s b)
    | .okData data => .ok (mapQueryResponse data)

example : truthy (some "k") = true := by decide

example :
    (mapQueryResponse { timings := some [⟨"other", 1⟩, ⟨"query", 0.42⟩] }).executionTime
      = some 0.42 := rfl

example : run_posthog_sql ⟨none, some "p", none⟩ "select 1" (.okData {})
    = .error "POSTHOG_API_KEY environment variable is required" := rfl

/-! ## get_posthog_insight : upstream shapes

The upstream `query` and `filters` fields are `any` in the source; the
model gives them exactly the structure the code reads from them
(`query.kind`, `query.series[].event/name`, the nested HogQL text
`query.query`, `filters.events[].id/name`, `filters.actions[].name`). -/

/-- One entry of `query.series`. -/
structure SeriesEntry where
  event : Option String := none
  name : Option String := none
deriving DecidableEq

/-- The new-format `query` object. -/
structure QueryObj where
  kind : Option String := none
  series : Option (List SeriesEntry) := none
  query : Option String := none
deriving DecidableEq

/-- One entry of `filters.events`. -/
structure FilterEventEntry where
  id : Option String := none
  name : Option String := none
deriving DecidableEq

/-- One entry of `filters.actions`. -/
structure FilterActionEntry where
  name : Option String := none
deriving DecidableEq

/-- The legacy `filters` object. -/
structure FiltersObj where
  events : Option (List FilterEventEntry) := none
  actions : Option (List FilterActionEntry) := none
deriving DecidableEq

/-- The upstream `created_by` sub-object. -/
structure CreatedBy where
  id : Option Int := none
  email : Option String := none
  first_name : Option String := none
deriving DecidableEq

/-- An entry of the upstream `dashboards` array on an insight:
`number | { id: number; name?: string }`. -/
inductive DashboardRef where
  | intRef (n : Int)
  | objRef (id : Int) (name : Option String)
deriving DecidableEq

/-- The upstream response shape `PostHogInsightResponse`. -/
structure PostHogInsightResponse where
  id : Int := 0
  short_id : Option String := none
  name : Option String := none
  derived_name : Option String := none
  description : Option String := none
  tags : Option (List String) := none
  favorited : Option Bool := none
  last_refresh : Option String := none
  last_modified_at : Option String := none
  created_at : Option String := none
  created_by : Option CreatedBy := none
  query : Option QueryObj := none
  filters : Option FiltersObj := none
  hogql : Option String := none
  dashboards : Option (List DashboardRef) := none

/-! ### The HogQL event-name scan

`extractTrackedEvents` runs the global, case-insensitive regular
expression `event\s*=\s*'([^']+)'` over the nested HogQL text, and for
each match extracts the first quoted run `'([^']+)'` of the matched
substring — which is exactly the outer capture.  The scanner below
reproduces that: scan left to right; at each position try to match the
pattern; on success emit the capture and resume after the match. -/

/-- JavaScript's `\s` character class (the approximation covering the
listed whitespace code points; `Char.toLower` stands in for the regex
engine's case canonicalisation). -/
def jsWhitespace (c : Char) : Bool :=
  [' ', '\t', '\n', '\r', Char.ofNat 0x0b, Char.ofNat 0x0c, Char.ofNat 0xa0,
   Char.ofNat 0x1680, Char.ofNat 0x2028, Char.ofNat 0x2029, Char.ofNat 0x202f,
   Char.ofNat 0x205f, Char.ofNat 0x3000, Char.ofNat 0xfeff].contains c
  || (decide (0x2000 ≤ c.val) && decide (c.val ≤ 0x200a))

/-- Match a literal keyword case-insensitively at the head of the text;
returns the remaining text. -/
def matchKeyword : List Char → List Char → Option (List Char)
  | [], cs => some cs
  | _ :: _, [] => none
  | k :: ks, c :: cs => if c.toLower = k then matchKeyword ks cs else none

/-- Skip the (greedy) `\s*`. -/
def skipWs : List Char → List Char
  | [] => []
  | c :: cs => if jsWhitespace c then skipWs cs else c :: cs

/-- Match `([^']+)'` : a nonempty run of non-quote characters followed
by the closing quote.  Returns the capture and the text after it. -/
def captureQuoted (cs : List Char) : Option (List Char × List Char) :=
  let content := cs.takeWhile (fun c => c != squoteC)
  match cs.dropWhile (fun c => c != squoteC) with
  | _ :: rest => if content.isEmpty then none else some (content, rest)
  | [] => none

/-- Match the whole pattern `event\s*=\s*'([^']+)'` at the head of the
text. -/
def matchEventAt (cs : List Char) : Option (List Char × List Char) :=
  match matchKeyword ['e', 'v', 'e', 'n', 't'] cs with
  | none => none
  | some r1 =>
    match skipWs r1 with
    | c :: r3 =>
      if c = '=' then
        match skipWs r3 with
        | q :: r5 => if q = squoteC then captureQuoted r5 else none
        | [] => none
      else none
    | [] => none

theorem matchKeyword_length : ∀ (ks cs r : List Char),
    matchKeyword ks cs = some r → r.length ≤ cs.length := by
  intro ks
  induction ks with
  | nil => intro cs r h; simp [matchKeyword] at h; simp [h]
  | cons k ks ih =>
    intro cs r h
    cases cs with
    | nil => simp [matchKeyword] at h
    | cons c cs =>
      simp only [matchKeyword] at h
      split at h
      · have := ih cs r h
        simp
        omega
      · exact absurd h (by simp)

theorem matchKeyword_length_lt (ks cs r : List Char) (hne : ks ≠ [])
    (h : matchKeyword ks cs = some r) : r.length < cs.length := by
  cases ks with
  | nil => exact absurd rfl hne
  | cons k ks =>
    cases cs with
    | nil => simp [matchKeyword] at h
    | cons c cs =>
      simp only [matchKeyword] at h
      split at h
      · have := matchKeyword_length ks cs r h
        simp
        omega
      · exact absurd h (by simp)

theorem skipWs_length (cs : List Char) : (skipWs cs).length ≤ cs.length := by
  induction cs with
  | nil => simp [skipWs]
  | cons c cs ih =>
    simp only [skipWs]
    split
    · simp; omega
    · simp

theorem captureQuoted_length (cs cap rest : List Char)
    (h : captureQuoted cs = some (cap, rest)) : rest.length < cs.length := by
  simp only [captureQuoted] at h
  split at h
  next heq =>
    split at h
    · exact absurd h (by simp)
    · have hdrop : (cs.dropWhile (fun c => c != squoteC)).length ≤ cs.length :=
        (List.dropWhile_suffix _).sublist.length_le
      rw [heq] at hdrop
      simp at h
      simp [← h.2] at hdrop ⊢
      omega
  next => exact absurd h (by simp)

theorem matchEventAt_length (cs cap rest : List Char)
    (h : matchEventAt cs = some (cap, rest)) : rest.length < cs.length := by
  simp only [matchEventAt] at h
  split at h
  next => exact absurd h (by simp)
  next r1 hkw =>
    have h1 : r1.length < cs.length :=
      matchKeyword_length_lt _ _ _ (by simp) hkw
    split at h
    next c r3 hskip =>
      have h3 : r3.length < r1.length := by
        have := skipWs_length r1
        rw [hskip] at this
        simp at this
        omega
      split at h
      · split at h
        next q r5 hskip2 =>
          have h5 : r5.length < r3.length := by
            have := skipWs_length r3
            rw [hskip2] at this
            simp at this
            omega
          split at h
          · have := captureQuoted_length r5 cap rest h
            omega
          · exact absurd h (by simp)
        next => exact absurd h (by simp)
      · exact absurd h (by simp)
    next => exact absurd h (by simp)

/-- The global scan: at each position try the pattern; on a match, emit
the capture (as the two-step `match`/inner-`match` extraction of the
source does) and continue after the matched text. -/
def scanHogqlAux : Nat → List Char → List String
  | 0, _ => []
  | _ + 1, [] => []
  | fuel + 1, c :: rest =>
    match matchEventAt (c :: rest) with
    | some (cap, after) => String.mk cap :: scanHogqlAux fuel after
    | none => scanHogqlAux fuel rest

/-- The scan itself.  The fuel `cs.length` is a termination device
only: each step of the source's scan consumes at least one character,
so this fuel is always sufficient — `scanHogqlAux_fuel` below proves
the result is the same for every sufficient fuel. -/
def scanHogql (cs : List Char) : List String := scanHogqlAux cs.length cs

theorem scanHogqlAux_fuel (fuel₁ : Nat) : ∀ (fuel₂ : Nat) (cs : List Char),
    cs.length ≤ fuel₁ → cs.length ≤ fuel₂ →
    scanHogqlAux fuel₁ cs = scanHogqlAux fuel₂ cs := by
  induction fuel₁ with
  | zero =>
    intro fuel₂ cs h1 _
    have : cs = [] := List.length_eq_zero.mp (Nat.le_zero.mp h1)
    subst this
    cases fuel₂ <;> rfl
  | succ fuel ih =>
    intro fuel₂ cs h1 h2
    cases cs with
    | nil => cases fuel₂ <;> rfl
    | cons c rest =>
      cases fuel₂ with
      | zero => simp at h2
      | succ f2 =>
        simp only [scanHogqlAux]
        have hr : rest.length ≤ fuel := by simp at h1; omega
        have hr2 : rest.length ≤ f2 := by simp at h2; omega
        cases hm : matchEventAt (c :: rest) with
        | none => exact ih f2 rest hr hr2
        | some pr =>
          obtain ⟨cap, after⟩ := pr
          have hlt := matchEventAt_length (c :: rest) cap after hm
          simp only []
          rw [ih f2 after (by simp at hlt; omega) (by simp at hlt; omega)]

example : scanHogql "select 1 where event = 'click' and EVENT='buy'".data
    = ["click", "buy"] := by decide

/-! ### extractTrackedEvents

The source inserts candidate strings into a `Set<string>` (insertion
order preserved, duplicates dropped) while walking, in order: the
`series` entries (`event` then `name`), the HogQL text matches, the
legacy `filters.events` entries (`id` then `name`), and the legacy
`filters.actions` entries (`name`).  Each field is guarded by a
truthiness check (`if (series.event) events.add(series.event)`), so an
absent or empty-string field contributes nothing.  The model lists the
candidates each loop would offer, in order, and folds them through
`addEvent`, the insertion-ordered set-insert. -/

/-- Insertion into an insertion-ordered string set: drop duplicates,
append first occurrences. -/
def addEvent (acc : List String) (s : String) : List String :=
  if s ∈ acc then acc else acc ++ [s]

/-- The candidate a truthiness-guarded `events.add(<field>)` offers:
nothing when the field is absent or the empty string. -/
def truthyStr : Option String → List String
  | none => []
  | some s => if s = "" then [] else [s]

/-- Candidates of one `series` entry: `event` then `name`. -/
def seriesCandidates (e : SeriesEntry) : List String :=
  truthyStr e.event ++ truthyStr e.name

/-- Candidates of one `filters.events` entry: `id` then `name`. -/
def filterEventCandidates (e : FilterEventEntry) : List String :=
  truthyStr e.id ++ truthyStr e.name

/-- Candidates of one `filters.actions` entry: `name`. -/
def filterActionCandidates (a : FilterActionEntry) : List String :=
  truthyStr a.name

/-- Candidates from the nested HogQL text: the regex captures, each
guarded by `if (eventName)` (the truthiness filter).  The guard on
`query.query` itself is a truthiness check, so empty text is skipped. -/
def hogqlCandidates (q : QueryObj) : List String :=
  match q.query with
  | none => []
  | some s => if s = "" then [] else (scanHogql s.data).filter (fun e => e != "")

/-- Candidates the `if (query) { ... }` block offers: the `series` loop
then the HogQL scan. -/
def queryCandidates : Option QueryObj → List String
  | none => []
  | some q =>
    (match q.series with
     | some l => l.flatMap seriesCandidates
     | none => []) ++ hogqlCandidates q

/-- Candidates the `if (filters) { ... }` block offers: the `events`
loop then the `actions` loop. -/
def filtersCandidates : Option FiltersObj → List String
  | none => []
  | some f =>
    (match f.events with
     | some l => l.flatMap filterEventCandidates
     | none => []) ++
    (match f.actions with
     | some l => l.flatMap filterActionCandidates
     | none => [])

/-- All candidate strings the source would offer to the set, in
discovery order. -/
def rawTrackedCandidates (qo : Option QueryObj) (fo : Option FiltersObj) : List String :=
  queryCandidates qo ++ filtersCandidates fo

/-- Model of `extractTrackedEvents(query, filters)`: `Array.from` of the
insertion-ordered set the loops built. -/
def extractTrackedEvents (qo : Option QueryObj) (fo : Option FiltersObj) : List String :=
  (rawTrackedCandidates qo fo).foldl addEvent []

/-- Model of `extractQueryKind(query)`: null when `query` is falsy; the `kind`
field when the object carries one; null otherwise. -/
def extractQueryKind : Option QueryObj → Option String
  | none => none
  | some q => q.kind

/-! ### get_posthog_insight : output mapping -/

/-- A normalized `dashboards` back-reference of the output. -/
structure DashboardReference where
  id : Int
  name : Option String
deriving DecidableEq

/-- The output shape `InsightDetailResponse`. -/
structure InsightDetailResponse where
  id : Int
  shortId : Option String
  name : Option String
  derivedName : Option String
  description : Option String
  tags : List String
  favorited : Bool
  lastRefresh : Option String
  lastModifiedAt : Option String
  createdAt : Option String
  createdBy : Option String
  query : Option String
  filters : Option String
  hogql : Option String
  dashboards : List DashboardReference
  queryKind : Option String
  trackedEvents : List String
deriving DecidableEq

/-- An optional field of a JSON object being serialized: omitted when
absent (as `JSON.stringify` omits `undefined` properties). -/
def optField (k : String) (f : α → JValue) : Option α → List (String × JValue)
  | none => []
  | some v => [(k, f v)]

/-- JSON value of a `series` entry, for `JSON.stringify(data.query)`. -/
def seriesEntryJ (e : SeriesEntry) : JValue :=
  .obj (optField "event" .str e.event ++ optField "name" .str e.name)

/-- JSON value of the `query` object. -/
def queryObjJ (q : QueryObj) : JValue :=
  .obj (optField "kind" .str q.kind ++
        optField "series" (fun l => .arr (l.map seriesEntryJ)) q.series ++
        optField "query" .str q.query)

/-- JSON value of a `filters.events` entry. -/
def filterEventJ (e : FilterEventEntry) : JValue :=
  .obj (optField "id" .str e.id ++ optField "name" .str e.name)

/-- JSON value of a `filters.actions` entry. -/
def filterActionJ (a : FilterActionEntry) : JValue :=
  .obj (optField "name" .str a.name)

/-- JSON value of the `filters` object. -/
def filtersObjJ (f : FiltersObj) : JValue :=
  .obj (optField "events" (fun l => .arr (l.map filterEventJ)) f.events ++
        optField "actions" (fun l => .arr (l.map filterActionJ)) f.actions)

/-- Model of `data.created_by?.email ?? data.created_by?.first_name ?? null`
(`??` is nullish coalescing: a present empty string is kept). -/
def createdByOf : Option CreatedBy → Option String
  | none => none
  | some cb => cb.email <|> cb.first_name

/-- Normalization of one upstream `dashboards` entry:
`id: typeof d === 'number' ? d : d.id`,
`name: typeof d === 'number' ? null : (d.name ?? null)`. -/
def mapDashboardRef : DashboardRef → DashboardReference
  | .intRef n => ⟨n, none⟩
  | .objRef i name => ⟨i, name⟩

/-- The insight endpoint `` `https://${HOST}/api/projects/${PROJECT_ID}/insights/${insightId}/` `` -/
def insightUrl (cfg : Config) (insightId : Int) : String :=
  "https://" ++ cfg.host ++ "/api/projects/" ++ cfg.projectId ++ "/insights/"
    ++ toString insightId ++ "/"

/-- The success-path mapping of `get_posthog_insight`: the object
literal it returns, field by field. -/
def mapInsightResponse (data : PostHogInsightResponse) : InsightDetailResponse :=
  { id := data.id
    shortId := data.short_id
    name := data.name <|> data.derived_name
    derivedName := data.derived_name
    description := data.description
    tags := data.tags.getD []
    favorited := data.favorited.getD false
    lastRefresh := data.last_refresh
    lastModifiedAt := data.last_modified_at
    createdAt := data.created_at
    createdBy := createdByOf data.created_by
    query := data.query.map (fun q => jsonStringify (queryObjJ q))
    filters := data.filters.map (fun f => jsonStringify (filtersObjJ f))
    hogql := data.hogql
    dashboards := (data.dashboards.getD []).map mapDashboardRef
    queryKind := extractQueryKind data.query
    trackedEvents := extractTrackedEvents data.query data.filters }

/-- Model of `get_posthog_insight(insightId)`, with the transport's single
response passed in. -/
def get_posthog_insight (env : Env) (insightId : Int)
    (resp : UpstreamResult PostHogInsightResponse) : Except String InsightDetailResponse :=
  match resolveConfig env with
  | .error e => .error e
  | .ok _cfg =>
    match resp with
    | .httpError s b => .error ("Failed to get insight: " ++ httpErrorMessage s b)
    | .okData data => .ok (mapInsightResponse data)

example :
    extractTrackedEvents
      (some { series := some [{ event := some "a" }, { event := some "a", name := some "a" }] })
      none = ["a"] := by decide

example : extractTrackedEvents none none = [] := rfl

example :
    (mapInsightResponse { dashboards := some [.intRef 5, .objRef 7 (some "X")] }).dashboards
      = [⟨5, none⟩, ⟨7, some "X"⟩] := by decide

/-! ## list_posthog_dashboards -/

/-- The `insight` sub-object of an upstream tile. -/
structure PostHogTileInsight where
  id : Int := 0
  short_id : Option String := none
  name : Option String := none
  derived_name : Option String := none
  description : Option String := none
deriving DecidableEq

/-- An upstream dashboard tile. -/
structure PostHogTile where
  id : Option Int := none
  insight : Option PostHogTileInsight := none
deriving DecidableEq

/-- An upstream dashboard record. -/
structure PostHogDashboard where
  id : Int := 0
  name : Option String := none
  description : Option String := none
  tags : Option (List String) := none
  pinned : Option Bool := none
  created_at : Option String := none
  created_by : Option CreatedBy := none
  last_accessed_at : Option String := none
  tiles : Option (List PostHogTile) := none
deriving DecidableEq

/-- One upstream page of the dashboards collection endpoint. -/
structure PostHogDashboardListResponse where
  count : Option Int := none
  next : Option String := none
  previous : Option String := none
  results : Option (List PostHogDashboard) := none
deriving DecidableEq

/-- The output insight summary embedded in a dashboard. -/
structure InsightSummary where
  id : Int
  shortId : Option String
  name : Option String
  description : Option String
deriving DecidableEq

/-- The output dashboard summary. -/
structure DashboardSummary where
  id : Int
  name : Option String
  description : Option String
  tags : List String
  pinned : Bool
  createdAt : Option String
  createdBy : Option String
  lastAccessedAt : Option String
  insightCount : Nat
  insights : List InsightSummary
deriving DecidableEq

/-- The output of `list_posthog_dashboards`. -/
structure ListDashboardsResponse where
  dashboards : List DashboardSummary
  totalCount : Nat
deriving DecidableEq

/-- The projection of a tile's insight:
`{id, shortId, name: name ?? derived_name ?? null, description}`. -/
def mapTileInsight (ins : PostHogTileInsight) : InsightSummary :=
  ⟨ins.id, ins.short_id, ins.name <|> ins.derived_name, ins.description⟩

/-- Model of `(dashboard.tiles ?? []).filter(tile => tile.insight != null).map(...)`:
keep the tiles whose `insight` is non-null and project each.
(`filterMap` over the optional sub-object is exactly that
filter-then-project.) -/
def dashboardInsights (d : PostHogDashboard) : List InsightSummary :=
  (d.tiles.getD []).filterMap (fun t => t.insight.map mapTileInsight)

/-- The dashboard summary pushed onto the accumulator for each upstream
dashboard of a page. -/
def mapDashboard (d : PostHogDashboard) : DashboardSummary :=
  let insights := dashboardInsights d
  { id := d.id
    name := d.name
    description := d.description
    tags := d.tags.getD []
    pinned := d.pinned.getD false
    createdAt := d.created_at
    createdBy := createdByOf d.created_by
    lastAccessedAt := d.last_accessed_at
    insightCount := insights.length
    insights := insights }

/-- The collection endpoint `` `https://${HOST}/api/projects/${PROJECT_ID}/dashboards/` `` -/
def dashboardsUrl (cfg : Config) : String :=
  "https://" ++ cfg.host ++ "/api/projects/" ++ cfg.projectId ++ "/dashboards/"

/-- The `while (nextUrl)` pagination loop.  `fetch` is the transport;
`fuel` bounds the number of iterations the model unrolls (the source
imposes no bound of its own, so `none` — fuel exhausted — models a loop
still running).  The loop guard is JS truthiness of
`nextUrl = data.next ?? null`: the loop continues only when `next` is
present and not the empty string (an empty-string `next`, being falsy,
ends pagination exactly like a null/absent one).  On success the loop
yields the accumulated summaries and the number of fetches performed;
a non-ok response yields the thrown error's message. -/
def listLoop (fetch : String → UpstreamResult PostHogDashboardListResponse) :
    Nat → String → List DashboardSummary →
    Option (Except String (List DashboardSummary × Nat))
  | 0, _, _ => none
  | fuel + 1, url, acc =>
    match fetch url with
    | .httpError s b => some (.error (httpErrorMessage s b))
    | .okData page =>
      let acc2 := acc ++ (page.results.getD []).map mapDashboard
      match page.next with
      | none => some (.ok (acc2, 1))
      | some nextUrl =>
        if nextUrl != "" then
          match listLoop fetch fuel nextUrl acc2 with
          | none => none
          | some (.error e) => some (.error e)
          | some (.ok (res, n)) => some (.ok (res, n + 1))
        else some (.ok (acc2, 1))

/-- Model of `list_posthog_dashboards()`, with the transport and a fuel bound
for the loop passed in.  Config errors are thrown before the `try`
block; an error thrown inside the loop is re-raised by the `catch`
block as `"Failed to list dashboards: " + message`; on success the
result is `{ dashboards: allDashboards, totalCount: allDashboards.length }`. -/
def list_posthog_dashboards (env : Env)
    (fetch : String → UpstreamResult PostHogDashboardListResponse) (fuel : Nat) :
    Option (Except String ListDashboardsResponse) :=
  match resolveConfig env with
  | .error e => some (.error e)
  | .ok cfg =>
    match listLoop fetch fuel (dashboardsUrl cfg) [] with
    | none => none
    | some (.error e) => some (.error ("Failed to list dashboards: " ++ e))
    | some (.ok (res, _n)) => some (.ok ⟨res, res.length⟩)

example :
    (mapDashboard { tiles := some [{ insight := none },
        { insight := some { id := 3, name := some "N" } }] }).insightCount = 1 := by decide

example :
    list_posthog_dashboards ⟨some "k", some "p", none⟩
      (fun _ => .okData { results := some [{ id := 4 }] }) 1
      = some (.ok ⟨[mapDashboard { id := 4 }], 1⟩) := by
  simp [list_posthog_dashboards, resolveConfig, truthy, listLoop]

example :
    listLoop (fun _ => .okData { next := some "" }) 1 "u" []
      = some (.ok ([], 1)) := rfl

/-! ## Field-level emission

The three operations return object literals in which every key is
written explicitly, so a key is never omitted; the functions below give
the JSON value each key of the returned object carries.  An
`Option`-typed field serializes to JSON `null` when `none` (TypeScript
`null`), a list to a JSON array, a `Bool` to a JSON boolean. -/

/-- JSON value of a nullable field. -/
def jNullable (f : α → JValue) : Option α → JValue
  | none => .null
  | some v => f v

/-- The keys of a `PostHogQueryResponse` object. -/
inductive QueryField where
  | columns | results | hasMore | limit | offset | isCached | executionTime
deriving DecidableEq

/-- The JSON value each key of `run_posthog_sql`'s result carries. -/
def emitQueryField (r : PostHogQueryResponse) : QueryField → JValue
  | .columns => .arr (r.columns.map .str)
  | .results => .arr (r.results.map .str)
  | .hasMore => .bool r.hasMore
  | .limit => jNullable (fun n => .num (n : Rat)) r.limit
  | .offset => jNullable (fun n => .num (n : Rat)) r.offset
  | .isCached => .bool r.isCached
  | .executionTime => jNullable .num r.executionTime

/-- The keys of an `InsightDetailResponse` object. -/
inductive InsightField where
  | id | shortId | name | derivedName | description | tags | favorited
  | lastRefresh | lastModifiedAt | createdAt | createdBy | query | filters
  | hogql | dashboards | queryKind | trackedEvents
deriving DecidableEq

/-- JSON value of a normalized dashboard back-reference. -/
def dashboardRefJ (d : DashboardReference) : JValue :=
  .obj [("id", .num (d.id : Rat)), ("name", jNullable .str d.name)]

/-- The JSON value each key of `get_posthog_insight`'s result carries. -/
def emitInsightField (r : InsightDetailResponse) : InsightField → JValue
  | .id => .num (r.id : Rat)
  | .shortId => jNullable .str r.shortId
  | .name => jNullable .str r.name
  | .derivedName => jNullable .str r.derivedName
  | .description => jNullable .str r.description
  | .tags => .arr (r.tags.map .str)
  | .favorited => .bool r.favorited
  | .lastRefresh => jNullable .str r.lastRefresh
  | .lastModifiedAt => jNullable .str r.lastModifiedAt
  | .createdAt => jNullable .str r.createdAt
  | .createdBy => jNullable .str r.createdBy
  | .query => jNullable .str r.query
  | .filters => jNullable .str r.filters
  | .hogql => jNullable .str r.hogql
  | .dashboards => .arr (r.dashboards.map dashboardRefJ)
  | .queryKind => jNullable .str r.queryKind
  | .trackedEvents => .arr (r.trackedEvents.map .str)

/-- The keys of a `DashboardSummary` object. -/
inductive DashField where
  | id | name | description | tags | pinned | createdAt | createdBy
  | lastAccessedAt | insightCount | insights
deriving DecidableEq

/-- JSON value of an embedded insight summary. -/
def insightSummaryJ (i : InsightSummary) : JValue :=
  .obj [("id", .num (i.id : Rat)), ("shortId", jNullable .str i.shortId),
        ("name", jNullable .str i.name), ("description", jNullable .str i.description)]

/-- The JSON value each key of a dashboard summary carries. -/
def emitDashField (d : DashboardSummary) : DashField → JValue
  | .id => .num (d.id : Rat)
  | .name => jNullable .str d.name
  | .description => jNullable .str d.description
  | .tags => .arr (d.tags.map .str)
  | .pinned => .bool d.pinned
  | .createdAt => jNullable .str d.createdAt
  | .createdBy => jNullable .str d.createdBy
  | .lastAccessedAt => jNullable .str d.lastAccessedAt
  | .insightCount => .num (d.insightCount : Rat)
  | .insights => .arr (d.insights.map insightSummaryJ)

/-! ## Claim C1 -/

/-- C1 as the specification states it (definition follows the spec's
words, for comparison with the code): for every upstream response,
every optional upstream field that is absent is emitted as the explicit
JSON `null` — the key present, never an empty string — except
array-typed fields, which are emitted as empty JSON arrays.  The
booleans (`hasMore`, `is_cached`, `favorited`, `pinned`) are optional
upstream fields not excepted by the claim, so the claim demands `null`
for them too. -/
def specClaimC1 : Prop :=
  (∀ r : PostHogAPIResponse, r.columns = none →
      emitQueryField (mapQueryResponse r) .columns = .arr []) ∧
  (∀ r : PostHogAPIResponse, r.results = none →
      emitQueryField (mapQueryResponse r) .results = .arr []) ∧
  (∀ r : PostHogAPIResponse, r.hasMore = none →
      emitQueryField (mapQueryResponse r) .hasMore = .null) ∧
  (∀ r : PostHogAPIResponse, r.limit = none →
      emitQueryField (mapQueryResponse r) .limit = .null) ∧
  (∀ r : PostHogAPIResponse, r.offset = none →
      emitQueryField (mapQueryResponse r) .offset = .null) ∧
  (∀ r : PostHogAPIResponse, r.is_cached = none →
      emitQueryField (mapQueryResponse r) .isCached = .null) ∧
  (∀ r : PostHogAPIResponse, r.timings = none →
      emitQueryField (mapQueryResponse r) .executionTime = .null) ∧
  (∀ r : PostHogInsightResponse, r.short_id = none →
      emitInsightField (mapInsightResponse r) .shortId = .null) ∧
  (∀ r : PostHogInsightResponse, r.name = none → r.derived_name = none →
      emitInsightField (mapInsightResponse r) .name = .null) ∧
  (∀ r : PostHogInsightResponse, r.derived_name = none →
      emitInsightField (mapInsightResponse r) .derivedName = .null) ∧
  (∀ r : PostHogInsightResponse, r.description = none →
      emitInsightField (mapInsightResponse r) .description = .null) ∧
  (∀ r : PostHogInsightResponse, r.tags = none →
      emitInsightField (mapInsightResponse r) .tags = .arr []) ∧
  (∀ r : PostHogInsightResponse, r.favorited = none →
      emitInsightField (mapInsightResponse r) .favorited = .null) ∧
  (∀ r : PostHogInsightResponse, r.last_refresh = none →
      emitInsightField (mapInsightResponse r) .lastRefresh = .null) ∧
  (∀ r : PostHogInsightResponse, r.last_modified_at = none →
      emitInsightField (mapInsightResponse r) .lastModifiedAt = .null) ∧
  (∀ r : PostHogInsightResponse, r.created_at = none →
      emitInsightField (mapInsightResponse r) .createdAt = .null) ∧
  (∀ r : PostHogInsightResponse, r.created_by = none →
      emitInsightField (mapInsightResponse r) .createdBy = .null) ∧
  (∀ r : PostHogInsightResponse, r.query = none →
      emitInsightField (mapInsightResponse r) .query = .null) ∧
  (∀ r : PostHogInsightResponse, r.filters = none →
      emitInsightField (mapInsightResponse r) .filters = .null) ∧
  (∀ r : PostHogInsightResponse, r.hogql = none →
      emitInsightField (mapInsightResponse r) .hogql = .null) ∧
  (∀ r : PostHogInsightResponse, r.dashboards = none →
      emitInsightField (mapInsightResponse r) .dashboards = .arr []) ∧
  (∀ r : PostHogInsightResponse, r.query = none →
      emitInsightField (mapInsightResponse r) .queryKind = .null) ∧
  (∀ r : PostHogInsightResponse, r.query = none → r.filters = none →
      emitInsightField (mapInsightResponse r) .trackedEvents = .arr []) ∧
  (∀ d : PostHogDashboard, d.name = none →
      emitDashField (mapDashboard d) .name = .null) ∧
  (∀ d : PostHogDashboard, d.description = none →
      emitDashField (mapDashboard d) .description = .null) ∧
  (∀ d : PostHogDashboard, d.tags = none →
      emitDashField (mapDashboard d) .tags = .arr []) ∧
  (∀ d : PostHogDashboard, d.pinned = none →
      emitDashField (mapDashboard d) .pinned = .null) ∧
  (∀ d : PostHogDashboard, d.created_at = none →
      emitDashField (mapDashboard d) .createdAt = .null) ∧
  (∀ d : PostHogDashboard, d.created_by = none →
      emitDashField (mapDashboard d) .createdBy = .null) ∧
  (∀ d : PostHogDashboard, d.last_accessed_at = none →
      emitDashField (mapDashboard d) .lastAccessedAt = .null) ∧
  (∀ d : PostHogDashboard, d.tiles = none →
      emitDashField (mapDashboard d) .insights = .arr [])

/-- C1 counterexample: the claim as stated is false.  On the upstream
response with every optional field absent, `run_posthog_sql` emits
`hasMore` as the JSON boolean `false` (the `?? false` default), not as
the explicit `null` the claim requires of every non-array optional
field. -/
theorem c1_counterexample : ¬ specClaimC1 := by
  intro h
  have hc := h.2.2.1 {} rfl
  simp [emitQueryField, mapQueryResponse] at hc

/-- C1 (corrected): for every upstream response, every optional
upstream field that is absent is emitted as explicit JSON `null` — the
key present, never an empty string — except array-typed fields, which
are emitted as empty sequences, and boolean-typed fields (`hasMore`,
`isCached`, `favorited`, `pinned`), which are emitted as the JSON
boolean `false`. -/
theorem c1_absent_fields :
  (∀ r : PostHogAPIResponse, r.columns = none →
      emitQueryField (mapQueryResponse r) .columns = .arr []) ∧
  (∀ r : PostHogAPIResponse, r.results = none →
      emitQueryField (mapQueryResponse r) .results = .arr []) ∧
  (∀ r : PostHogAPIResponse, r.hasMore = none →
      emitQueryField (mapQueryResponse r) .hasMore = .bool false) ∧
  (∀ r : PostHogAPIResponse, r.limit = none →
      emitQueryField (mapQueryResponse r) .limit = .null) ∧
  (∀ r : PostHogAPIResponse, r.offset = none →
      emitQueryField (mapQueryResponse r) .offset = .null) ∧
  (∀ r : PostHogAPIResponse, r.is_cached = none →
      emitQueryField (mapQueryResponse r) .isCached = .bool false) ∧
  (∀ r : PostHogAPIResponse, r.timings = none →
      emitQueryField (mapQueryResponse r) .executionTime = .null) ∧
  (∀ r : PostHogInsightResponse, r.short_id = none →
      emitInsightField (mapInsightResponse r) .shortId = .null) ∧
  (∀ r : PostHogInsightResponse, r.name = none → r.derived_name = none →
      emitInsightField (mapInsightResponse r) .name = .null) ∧
  (∀ r : PostHogInsightResponse, r.derived_name = none →
      emitInsightField (mapInsightResponse r) .derivedName = .null) ∧
  (∀ r : PostHogInsightResponse, r.description = none →
      emitInsightField (mapInsightResponse r) .description = .null) ∧
  (∀ r : PostHogInsightResponse, r.tags = none →
      emitInsightField (mapInsightResponse r) .tags = .arr []) ∧
  (∀ r : PostHogInsightResponse, r.favorited = none →
      emitInsightField (mapInsightResponse r) .favorited = .bool false) ∧
  (∀ r : PostHogInsightResponse, r.last_refresh = none →
      emitInsightField (mapInsightResponse r) .lastRefresh = .null) ∧
  (∀ r : PostHogInsightResponse, r.last_modified_at = none →
      emitInsightField (mapInsightResponse r) .lastModifiedAt = .null) ∧
  (∀ r : PostHogInsightResponse, r.created_at = none →
      emitInsightField (mapInsightResponse r) .createdAt = .null) ∧
  (∀ r : PostHogInsightResponse, r.created_by = none →
      emitInsightField (mapInsightResponse r) .createdBy = .null) ∧
  (∀ r : PostHogInsightResponse, r.query = none →
      emitInsightField (mapInsightResponse r) .query = .null) ∧
  (∀ r : PostHogInsightResponse, r.filters = none →
      emitInsightField (mapInsightResponse r) .filters = .null) ∧
  (∀ r : PostHogInsightResponse, r.hogql = none →
      emitInsightField (mapInsightResponse r) .hogql = .null) ∧
  (∀ r : PostHogInsightResponse, r.dashboards = none →
      emitInsightField (mapInsightResponse r) .dashboards = .arr []) ∧
  (∀ r : PostHogInsightResponse, r.query = none →
      emitInsightField (mapInsightResponse r) .queryKind = .null) ∧
  (∀ r : PostHogInsightResponse, r.query = none → r.filters = none →
      emitInsightField (mapInsightResponse r) .trackedEvents = .arr []) ∧
  (∀ d : PostHogDashboard, d.name = none →
      emitDashField (mapDashboard d) .name = .null) ∧
  (∀ d : PostHogDashboard, d.description = none →
      emitDashField (mapDashboard d) .description = .null) ∧
  (∀ d : PostHogDashboard, d.tags = none →
      emitDashField (mapDashboard d) .tags = .arr []) ∧
  (∀ d : PostHogDashboard, d.pinned = none →
      emitDashField (mapDashboard d) .pinned = .bool false) ∧
  (∀ d : PostHogDashboard, d.created_at = none →
      emitDashField (mapDashboard d) .createdAt = .null) ∧
  (∀ d : PostHogDashboard, d.created_by = none →
      emitDashField (mapDashboard d) .createdBy = .null) ∧
  (∀ d : PostHogDashboard, d.last_accessed_at = none →
      emitDashField (mapDashboard d) .lastAccessedAt = .null) ∧
  (∀ d : PostHogDashboard, d.tiles = none →
      emitDashField (mapDashboard d) .insights = .arr []) := by
  refine ⟨?_, ?_, ?_, ?_, ?_, ?_, ?_, ?_, ?_, ?_, ?_, ?_, ?_, ?_, ?_, ?_,
          ?_, ?_, ?_, ?_, ?_, ?_, ?_, ?_, ?_, ?_, ?_, ?_, ?_, ?_, ?_⟩ <;>
    intro r h <;>
    first
    | (intro h2
       simp [emitQueryField, emitInsightField, emitDashField, mapQueryResponse,
             mapInsightResponse, mapDashboard, dashboardInsights, createdByOf,
             extractQueryKind, extractTrackedEvents, rawTrackedCandidates,
             queryCandidates, filtersCandidates, jNullable, h, h2])
    | simp [emitQueryField, emitInsightField, emitDashField, mapQueryResponse,
            mapInsightResponse, mapDashboard, dashboardInsights, createdByOf,
            extractQueryKind, extractTrackedEvents, rawTrackedCandidates,
            queryCandidates, filtersCandidates, jNullable, h]

/-- Witness for `c1_absent_fields`: the all-absent upstream responses,
evaluated. -/
theorem c1_absent_fields_witness :
    emitQueryField (mapQueryResponse {}) .hasMore = .bool false ∧
    emitQueryField (mapQueryResponse {}) .limit = .null ∧
    emitInsightField (mapInsightResponse {}) .tags = .arr [] ∧
    emitInsightField (mapInsightResponse {}) .name = .null ∧
    emitDashField (mapDashboard {}) .pinned = .bool false ∧
    emitDashField (mapDashboard {}) .insights = .arr [] :=
  ⟨c1_absent_fields.2.2.1 {} rfl,
   c1_absent_fields.2.2.2.1 {} rfl,
   c1_absent_fields.2.2.2.2.2.2.2.2.2.2.2.1 {} rfl,
   c1_absent_fields.2.2.2.2.2.2.2.2.1 {} rfl rfl,
   c1_absent_fields.2.2.2.2.2.2.2.2.2.2.2.2.2.2.2.2.2.2.2.2.2.2.2.2.2.2.1 {} rfl,
   c1_absent_fields.2.2.2.2.2.2.2.2.2.2.2.2.2.2.2.2.2.2.2.2.2.2.2.2.2.2.2.2.2.2 {} rfl⟩

/-! ## Claims C3 and C10 : trackedEvents -/

/-- First-occurrence deduplication, as the spec describes the result:
keep each string's first occurrence, drop later duplicates. -/
def dedupKeepFirst : List String → List String
  | [] => []
  | x :: xs => x :: dedupKeepFirst (xs.filter (fun y => y != x))
termination_by l => l.length
decreasing_by
  have := List.length_filter_le (fun y => y != x) xs
  simp
  omega

theorem mem_dedupKeepFirst (l : List String) (s : String)
    (h : s ∈ dedupKeepFirst l) : s ∈ l := by
  induction l using dedupKeepFirst.induct with
  | case1 => simp [dedupKeepFirst] at h
  | case2 x xs ih =>
    rw [dedupKeepFirst] at h
    rcases List.mem_cons.mp h with h | h
    · simp [h]
    · exact List.mem_cons_of_mem _ (List.mem_of_mem_filter (ih h))

theorem dedupKeepFirst_nodup (l : List String) : (dedupKeepFirst l).Nodup := by
  induction l using dedupKeepFirst.induct with
  | case1 => simp [dedupKeepFirst]
  | case2 x xs ih =>
    rw [dedupKeepFirst]
    refine List.nodup_cons.mpr ⟨?_, ih⟩
    intro hmem
    have := mem_dedupKeepFirst _ _ hmem
    have := List.of_mem_filter this
    simp at this

theorem foldl_addEvent_eq (l : List String) : ∀ acc : List String,
    l.foldl addEvent acc = acc ++ dedupKeepFirst (l.filter (fun y => decide (y ∉ acc))) := by
  induction l with
  | nil => intro acc; simp [dedupKeepFirst]
  | cons x xs ih =>
    intro acc
    by_cases hx : x ∈ acc
    · have h1 : List.foldl addEvent acc (x :: xs) = List.foldl addEvent acc xs := by
        simp [addEvent, hx]
      have h2 : (x :: xs).filter (fun y => decide (y ∉ acc))
          = xs.filter (fun y => decide (y ∉ acc)) := by
        simp [List.filter_cons, hx]
      rw [h1, h2, ih acc]
    · have h1 : List.foldl addEvent acc (x :: xs)
          = List.foldl addEvent (acc ++ [x]) xs := by
        simp [addEvent, hx]
      have h2 : (x :: xs).filter (fun y => decide (y ∉ acc))
          = x :: xs.filter (fun y => decide (y ∉ acc)) := by
        simp [List.filter_cons, hx]
      have h3 : xs.filter (fun y => decide (y ∉ acc ++ [x]))
          = (xs.filter (fun y => decide (y ∉ acc))).filter (fun y => y != x) := by
        rw [List.filter_filter]
        apply List.filter_congr
        intro y _
        by_cases hy : y ∈ acc <;> by_cases hyx : y = x <;>
          simp [hy, hyx, List.mem_append]
      rw [h1, ih (acc ++ [x]), h2, h3, dedupKeepFirst]
      simp

/-- The fold the source's loops perform is first-occurrence
deduplication of the candidate sequence. -/
theorem extractTrackedEvents_eq_dedup (qo : Option QueryObj) (fo : Option FiltersObj) :
    extractTrackedEvents qo fo = dedupKeepFirst (rawTrackedCandidates qo fo) := by
  rw [extractTrackedEvents, foldl_addEvent_eq]
  simp

theorem truthyStr_ne (o : Option String) (s : String) (h : s ∈ truthyStr o) : s ≠ "" := by
  cases o with
  | none => simp [truthyStr] at h
  | some v =>
    rw [truthyStr] at h
    split at h
    · simp at h
    · next hv => simp at h; subst h; exact hv

theorem seriesCandidates_ne (e : SeriesEntry) (s : String)
    (h : s ∈ seriesCandidates e) : s ≠ "" := by
  rcases List.mem_append.mp h with h | h <;> exact truthyStr_ne _ _ h

theorem filterEventCandidates_ne (e : FilterEventEntry) (s : String)
    (h : s ∈ filterEventCandidates e) : s ≠ "" := by
  rcases List.mem_append.mp h with h | h <;> exact truthyStr_ne _ _ h

theorem filterActionCandidates_ne (a : FilterActionEntry) (s : String)
    (h : s ∈ filterActionCandidates a) : s ≠ "" := by
  exact truthyStr_ne _ _ h

theorem hogqlCandidates_ne (q : QueryObj) (s : String)
    (h : s ∈ hogqlCandidates q) : s ≠ "" := by
  rw [hogqlCandidates] at h
  split at h
  · simp at h
  · split at h
    · simp at h
    · have := List.of_mem_filter h
      simpa using this

theorem queryCandidates_ne (qo : Option QueryObj) (s : String)
    (h : s ∈ queryCandidates qo) : s ≠ "" := by
  cases qo with
  | none => simp [queryCandidates] at h
  | some q =>
    rw [queryCandidates] at h
    rcases List.mem_append.mp h with h | h
    · split at h
      · next l _ =>
        obtain ⟨e, -, he⟩ := List.mem_flatMap.mp h
        exact seriesCandidates_ne e s he
      · simp at h
    · exact hogqlCandidates_ne q s h

theorem filtersCandidates_ne (fo : Option FiltersObj) (s : String)
    (h : s ∈ filtersCandidates fo) : s ≠ "" := by
  cases fo with
  | none => simp [filtersCandidates] at h
  | some f =>
    rw [filtersCandidates] at h
    rcases List.mem_append.mp h with h | h
    · split at h
      · next l _ =>
        obtain ⟨e, -, he⟩ := List.mem_flatMap.mp h
        exact filterEventCandidates_ne e s he
      · simp at h
    · split at h
      · next l _ =>
        obtain ⟨a, -, ha⟩ := List.mem_flatMap.mp h
        exact filterActionCandidates_ne a s ha
      · simp at h

theorem rawTrackedCandidates_ne (qo : Option QueryObj) (fo : Option FiltersObj)
    (s : String) (h : s ∈ rawTrackedCandidates qo fo) : s ≠ "" := by
  rcases List.mem_append.mp h with h | h
  · exact queryCandidates_ne qo s h
  · exact filtersCandidates_ne fo s h

/-- C3: `trackedEvents` is the first-occurrence deduplication of the
candidate sequence gathered by scanning, in order, the `series`
entries (`event` then `name`), the HogQL-text pattern captures, the
legacy `filters.events` entries (`id` then `name`) and the legacy
`filters.actions` entries (`name`); it never contains duplicates; the
example `series = [{event: "a"}, {event: "a", name: "a"}]` yields
`["a"]`; and absent `query`/`filters` yield the empty sequence. -/
theorem c3_trackedEvents :
    (∀ (qo : Option QueryObj) (fo : Option FiltersObj),
        extractTrackedEvents qo fo = dedupKeepFirst (rawTrackedCandidates qo fo) ∧
        (extractTrackedEvents qo fo).Nodup) ∧
    extractTrackedEvents
      (some { series := some [{ event := some "a" },
                              { event := some "a", name := some "a" }] })
      none = ["a"] ∧
    extractTrackedEvents none none = [] := by
  refine ⟨fun qo fo => ⟨extractTrackedEvents_eq_dedup qo fo, ?_⟩, by decide, rfl⟩
  rw [extractTrackedEvents_eq_dedup]
  exact dedupKeepFirst_nodup _

/-- C10: the `trackedEvents` sequence never contains the empty string:
every candidate passes a truthiness guard before insertion, so absent,
null or empty fields contribute nothing (illustrated by the two
concrete conjuncts). -/
theorem c10_no_empty_string :
    (∀ (qo : Option QueryObj) (fo : Option FiltersObj) (s : String),
        s ∈ extractTrackedEvents qo fo → s ≠ "") ∧
    extractTrackedEvents (some { series := some [{ event := some "" }] }) none = [] ∧
    extractTrackedEvents none
      (some { events := some [{ id := some "" }],
              actions := some [{ name := some "" }] }) = [] := by
  refine ⟨fun qo fo s h => ?_, by decide, by decide⟩
  rw [extractTrackedEvents_eq_dedup] at h
  exact rawTrackedCandidates_ne qo fo s (mem_dedupKeepFirst _ _ h)

/-- A concrete query input for the witness below. -/
def exampleQueryA : Option QueryObj := some { series := some [{ event := some "a" }] }

/-- Witness for `c10_no_empty_string`: a concrete tracked event is a
member and is nonempty. -/
theorem c10_no_empty_string_witness :
    "a" ∈ extractTrackedEvents exampleQueryA none ∧ ("a" : String) ≠ "" :=
  ⟨by decide, c10_no_empty_string.1 exampleQueryA none "a" (by decide)⟩

/-! ## Claim C4 : insights / insightCount -/

theorem length_filterMap_insight (l : List PostHogTile) :
    (l.filterMap (fun t => t.insight.map mapTileInsight)).length
      = l.countP (fun t => t.insight.isSome) := by
  induction l with
  | nil => simp
  | cons t ts ih =>
    cases h : t.insight with
    | none => simp [List.filterMap_cons, List.countP_cons, h, ih]
    | some ins => simp [List.filterMap_cons, List.countP_cons, h, ih]

/-- Concrete dashboards for the C4 witness: same tiles, different
other fields (including ones a server-supplied count could hide in). -/
def exampleDashA : PostHogDashboard :=
  { id := 1, tiles := some [{ insight := some { id := 9 } }, { id := some 2 }] }

/-- Second concrete dashboard with the same tiles. -/
def exampleDashB : PostHogDashboard :=
  { id := 2, name := some "other", tiles := some [{ insight := some { id := 9 } }, { id := some 2 }] }

/-- C4: a dashboard's `insights` is exactly its tiles filtered to those
with a non-null `insight`, projected to
`{id, shortId, name: name ?? derived_name ?? null, description}`;
`insightCount` is the length of that derived list — equivalently the
number of insight-bearing tiles — and depends on nothing but the tiles
(so it is never an upstream-supplied count); zero insight-bearing tiles
give zero. -/
theorem c4_insightCount :
    (∀ d : PostHogDashboard,
        (mapDashboard d).insightCount = (mapDashboard d).insights.length) ∧
    (∀ d : PostHogDashboard,
        (mapDashboard d).insights
          = (d.tiles.getD []).filterMap (fun t => t.insight.map mapTileInsight)) ∧
    (∀ d : PostHogDashboard,
        (mapDashboard d).insightCount
          = (d.tiles.getD []).countP (fun t => t.insight.isSome)) ∧
    (∀ d₁ d₂ : PostHogDashboard, d₁.tiles = d₂.tiles →
        (mapDashboard d₁).insightCount = (mapDashboard d₂).insightCount) ∧
    (mapDashboard { tiles := some [{ id := some 1 }] }).insightCount = 0 := by
  refine ⟨fun d => rfl, fun d => rfl, fun d => length_filterMap_insight _, ?_, by decide⟩
  intro d₁ d₂ h
  simp [mapDashboard, dashboardInsights, h]

/-- Witness for `c4_insightCount`: two concrete dashboards with the
same tiles have the same derived `insightCount`. -/
theorem c4_insightCount_witness :
    (mapDashboard exampleDashA).insightCount = (mapDashboard exampleDashB).insightCount :=
  c4_insightCount.2.2.2.1 exampleDashA exampleDashB rfl

/-! ## Claim C5 : dashboards normalization -/

/-- C5: each upstream `dashboards` entry is normalized in order — a
bare integer `n` to `{id: n, name: null}`, an object to its `id` and
its `name` (null when absent) — and the spec's mixed example holds. -/
theorem c5_dashboard_refs :
    (∀ (data : PostHogInsightResponse) (ds : List DashboardRef),
        data.dashboards = some ds →
        (mapInsightResponse data).dashboards = ds.map mapDashboardRef) ∧
    (∀ n : Int, mapDashboardRef (.intRef n) = ⟨n, none⟩) ∧
    (∀ (i : Int) (nm : Option String), mapDashboardRef (.objRef i nm) = ⟨i, nm⟩) ∧
    (mapInsightResponse { dashboards := some [.intRef 5, .objRef 7 (some "X")] }).dashboards
      = [⟨5, none⟩, ⟨7, some "X"⟩] := by
  refine ⟨fun data ds h => ?_, fun n => rfl, fun i nm => rfl, by decide⟩
  simp [mapInsightResponse, h]

/-- A concrete upstream insight record for the C5 witness. -/
def exampleInsightMixed : PostHogInsightResponse :=
  { dashboards := some [.intRef 5, .objRef 7 (some "X")] }

/-- Witness for `c5_dashboard_refs`. -/
theorem c5_dashboard_refs_witness :
    (mapInsightResponse exampleInsightMixed).dashboards
      = [.intRef 5, .objRef 7 (some "X")].map mapDashboardRef :=
  c5_dashboard_refs.1 exampleInsightMixed _ rfl

/-! ## Claim C6 : executionTime -/

theorem find?_query_first (ts : List Timing) : ∀ (i : Nat) (h : i < ts.length),
    (ts.get ⟨i, h⟩).k = "query" →
    (∀ j (hj : j < i), (ts.get ⟨j, Nat.lt_trans hj h⟩).k ≠ "query") →
    ts.find? (fun t => t.k == "query") = some (ts.get ⟨i, h⟩) := by
  induction ts with
  | nil => intro i h; simp at h
  | cons t ts ih =>
    intro i h hk hbefore
    cases i with
    | zero =>
      simp at hk
      simp [List.find?_cons, hk]
    | succ i =>
      have ht : t.k ≠ "query" := by
        have := hbefore 0 (Nat.succ_pos i)
        simpa using this
      have hrec := ih i (by simpa using h) (by simpa using hk)
        (fun j hj => by
          have := hbefore (j + 1) (Nat.succ_lt_succ hj)
          simpa using this)
      have hbeq : (t.k == "query") = false := by simpa using ht
      rw [List.find?_cons, hbeq]
      simpa using hrec

/-- C6: `executionTime` is the `t` of the first `timings` entry whose
`k` is the literal `"query"`; null when `timings` is absent or carries
no such entry; the spec's concrete example evaluates to `0.42`. -/
theorem c6_executionTime :
    (mapQueryResponse { timings := some [⟨"other", 1⟩, ⟨"query", 0.42⟩] }).executionTime
      = some 0.42 ∧
    (∀ data : PostHogAPIResponse, data.timings = none →
        (mapQueryResponse data).executionTime = none) ∧
    (∀ (data : PostHogAPIResponse) (ts : List Timing), data.timings = some ts →
        (∀ x ∈ ts, x.k ≠ "query") →
        (mapQueryResponse data).executionTime = none) ∧
    (∀ (data : PostHogAPIResponse) (ts : List Timing) (i : Nat) (h : i < ts.length),
        data.timings = some ts →
        (ts.get ⟨i, h⟩).k = "query" →
        (∀ j (hj : j < i), (ts.get ⟨j, Nat.lt_trans hj h⟩).k ≠ "query") →
        (mapQueryResponse data).executionTime = some (ts.get ⟨i, h⟩).t) := by
  refine ⟨rfl, fun data h => by simp [mapQueryResponse, h], ?_, ?_⟩
  · intro data ts hts hnone
    have : ts.find? (fun t => t.k == "query") = none := by
      rw [List.find?_eq_none]
      intro x hx
      simpa using hnone x hx
    simp [mapQueryResponse, hts, this]
  · intro data ts i h hts hk hbefore
    have := find?_query_first ts i h hk hbefore
    simp [mapQueryResponse, hts, this]

/-- The timings list of the C6 witness. -/
def exampleTimingsList : List Timing := [⟨"other", 1⟩, ⟨"query", 0.42⟩]

/-- A concrete upstream response for the C6 witness. -/
def exampleTimings : PostHogAPIResponse := { timings := some exampleTimingsList }

/-- Witness for `c6_executionTime`: the first-match characterisation
applied at index 1 of the concrete example. -/
theorem c6_executionTime_witness :
    (mapQueryResponse exampleTimings).executionTime
      = some (exampleTimingsList.get ⟨1, Nat.one_lt_two⟩).t :=
  c6_executionTime.2.2.2 exampleTimings exampleTimingsList 1 Nat.one_lt_two rfl rfl
    (fun j hj => by
      have hj0 : j = 0 := by omega
      subst hj0
      exact (by decide : ("other" : String) ≠ "query"))

/-! ## Claim C7 : non-2xx upstream status -/

/-- If the loop's first `pages.length` fetches succeed, each fetched
page linking onward by a truthy (nonempty) URL, and the fetch of the
following page returns a non-ok status, the loop surfaces that page's
thrown error message — whatever the position of the failing page. -/
theorem listLoop_chain_error
    (fetch : String → UpstreamResult PostHogDashboardListResponse)
    (pages : List PostHogDashboardListResponse) (urls : Nat → String)
    (status : Nat) (body : String)
    (hurls : ∀ i, urls i ≠ "")
    (hfetch : ∀ i (h : i < pages.length), fetch (urls i) = .okData (pages.get ⟨i, h⟩))
    (hnext : ∀ i (h : i < pages.length), (pages.get ⟨i, h⟩).next = some (urls (i + 1)))
    (herr : fetch (urls pages.length) = .httpError status body) :
    ∀ (fuel i : Nat), i ≤ pages.length → pages.length + 1 - i ≤ fuel →
      ∀ acc, listLoop fetch fuel (urls i) acc
        = some (.error (httpErrorMessage status body)) := by
  intro fuel
  induction fuel with
  | zero => intro i hi hfuel acc; omega
  | succ fuel ih =>
    intro i hi hfuel acc
    by_cases hieq : i = pages.length
    · subst hieq
      simp only [listLoop, herr]
    · have hilt : i < pages.length := by omega
      simp only [List.get_eq_getElem] at hfetch hnext
      have hnx := hnext i hilt
      have hbne : (urls (i + 1) != "") = true := by simpa using hurls (i + 1)
      have hrec := ih (i + 1) (by omega) (by omega)
        (acc ++ (pages[i].results.getD []).map mapDashboard)
      simp only [listLoop, hfetch i hilt, hnx, hbne, if_true, hrec]

/-- C7: a non-ok upstream status makes each operation fail with its
fixed prefix followed by the thrown `PostHog API error: <status> -
<body>` message, which contains the literal status code and the body
text; for the lister this covers the failing fetch arriving at any
position of the pagination chain — after any number of successfully
fetched, truthily linked pages. -/
theorem c7_http_error_messages :
    ∀ (env : Env) (cfg : Config), resolveConfig env = .ok cfg →
    ∀ (status : Nat) (body sql : String) (insightId : Int),
      run_posthog_sql env sql (.httpError status body)
          = .error ("PostHog query failed: " ++ httpErrorMessage status body) ∧
      get_posthog_insight env insightId (.httpError status body)
          = .error ("Failed to get insight: " ++ httpErrorMessage status body) ∧
      (∀ (fetch : String → UpstreamResult PostHogDashboardListResponse)
         (pages : List PostHogDashboardListResponse) (urls : Nat → String),
        (∀ i, urls i ≠ "") →
        urls 0 = dashboardsUrl cfg →
        (∀ i (h : i < pages.length), fetch (urls i) = .okData (pages.get ⟨i, h⟩)) →
        (∀ i (h : i < pages.length), (pages.get ⟨i, h⟩).next = some (urls (i + 1))) →
        fetch (urls pages.length) = .httpError status body →
        ∀ fuel, pages.length + 1 ≤ fuel →
          list_posthog_dashboards env fetch fuel
            = some (.error ("Failed to list dashboards: " ++ httpErrorMessage status body))) ∧
      (toString status).data <:+: (httpErrorMessage status body).data ∧
      body.data <:+: (httpErrorMessage status body).data := by
  intro env cfg hcfg status body sql insightId
  refine ⟨?_, ?_, ?_, ?_, ?_⟩
  · simp [run_posthog_sql, hcfg]
  · simp [get_posthog_insight, hcfg]
  · intro fetch pages urls hurls hstart hfetch hnext herr fuel hfuel
    have hloop := listLoop_chain_error fetch pages urls status body hurls hfetch hnext herr
      fuel 0 (Nat.zero_le _) (by omega) []
    rw [hstart] at hloop
    simp only [list_posthog_dashboards, hcfg, hloop]
  · refine ⟨"PostHog API error: ".data, (" - " ++ body).data, ?_⟩
    simp [httpErrorMessage, String.data_append]
  · refine ⟨("PostHog API error: " ++ toString status ++ " - ").data, [], ?_⟩
    simp [httpErrorMessage, String.data_append]

/-- A concrete environment with both required variables set. -/
def envFull : Env := ⟨some "key", some "proj", none⟩

/-- Its resolved configuration (host defaulted). -/
def cfgFull : Config := ⟨"key", "proj", "us.posthog.com"⟩

/-- First page of the C7 witness chain: fetched successfully, links
onward to a second page. -/
def failPage0 : PostHogDashboardListResponse :=
  { next := some "page1", results := some [{ id := 1 }] }

/-- The C7 witness transport: the collection endpoint succeeds, the
linked second page returns a 500. -/
def exampleFailFetch (url : String) : UpstreamResult PostHogDashboardListResponse :=
  if url = dashboardsUrl cfgFull then .okData failPage0
  else .httpError 500 "boom"

/-- Witness for `c7_http_error_messages`: the single-fetch operations
at a concrete 404, and the lister hitting a 500 on the second page of
the chain (after one successful page). -/
theorem c7_http_error_messages_witness :
    run_posthog_sql envFull "select 1" (.httpError 404 "not found")
        = .error ("PostHog query failed: " ++ httpErrorMessage 404 "not found") ∧
    get_posthog_insight envFull 7 (.httpError 404 "not found")
        = .error ("Failed to get insight: " ++ httpErrorMessage 404 "not found") ∧
    list_posthog_dashboards envFull exampleFailFetch 2
        = some (.error ("Failed to list dashboards: " ++ httpErrorMessage 500 "boom")) := by
  have h := c7_http_error_messages envFull cfgFull rfl 404 "not found" "select 1" 7
  have h2 := c7_http_error_messages envFull cfgFull rfl 500 "boom" "x" 0
  refine ⟨h.1, h.2.1, ?_⟩
  exact h2.2.2.1 exampleFailFetch [failPage0]
    (fun i => if i = 0 then dashboardsUrl cfgFull else "page1")
    (by
      intro i
      by_cases hi : i = 0 <;> simp [hi] <;> decide)
    rfl
    (by
      intro i hi
      match i, hi with
      | 0, _ => rfl)
    (by
      intro i hi
      match i, hi with
      | 0, _ => rfl)
    rfl 2 (by simp)

/-! ## Claim C8 : missing configuration -/

/-- C8: a missing `POSTHOG_API_KEY` or `POSTHOG_PROJECT_ID` fails every
operation immediately with the message naming the variable — for every
possible transport response, so before and independent of any network
call — the API key being checked first; an absent `POSTHOG_HOST`
defaults to `us.posthog.com` without failing. -/
theorem c8_missing_config :
    (∀ (env : Env) (sql : String) (resp : UpstreamResult PostHogAPIResponse),
        env.POSTHOG_API_KEY = none →
        run_posthog_sql env sql resp
          = .error "POSTHOG_API_KEY environment variable is required") ∧
    (∀ (env : Env) (sql : String) (resp : UpstreamResult PostHogAPIResponse),
        truthy env.POSTHOG_API_KEY = true → env.POSTHOG_PROJECT_ID = none →
        run_posthog_sql env sql resp
          = .error "POSTHOG_PROJECT_ID environment variable is required") ∧
    (∀ (env : Env) (insightId : Int) (resp : UpstreamResult PostHogInsightResponse),
        env.POSTHOG_API_KEY = none →
        get_posthog_insight env insightId resp
          = .error "POSTHOG_API_KEY environment variable is required") ∧
    (∀ (env : Env) (insightId : Int) (resp : UpstreamResult PostHogInsightResponse),
        truthy env.POSTHOG_API_KEY = true → env.POSTHOG_PROJECT_ID = none →
        get_posthog_insight env insightId resp
          = .error "POSTHOG_PROJECT_ID environment variable is required") ∧
    (∀ (env : Env) (fetch : String → UpstreamResult PostHogDashboardListResponse) (fuel : Nat),
        env.POSTHOG_API_KEY = none →
        list_posthog_dashboards env fetch fuel
          = some (.error "POSTHOG_API_KEY environment variable is required")) ∧
    (∀ (env : Env) (fetch : String → UpstreamResult PostHogDashboardListResponse) (fuel : Nat),
        truthy env.POSTHOG_API_KEY = true → env.POSTHOG_PROJECT_ID = none →
        list_posthog_dashboards env fetch fuel
          = some (.error "POSTHOG_PROJECT_ID environment variable is required")) ∧
    (∀ env : Env, env.POSTHOG_HOST = none →
        truthy env.POSTHOG_API_KEY = true → truthy env.POSTHOG_PROJECT_ID = true →
        resolveConfig env = .ok ⟨env.POSTHOG_API_KEY.getD "", env.POSTHOG_PROJECT_ID.getD "",
                                 "us.posthog.com"⟩) := by
  refine ⟨?_, ?_, ?_, ?_, ?_, ?_, ?_⟩
  · intro env sql resp h
    simp [run_posthog_sql, resolveConfig, h, truthy]
  · intro env sql resp hk h
    cases hkey : env.POSTHOG_API_KEY with
    | none => rw [hkey] at hk; simp [truthy] at hk
    | some s =>
      rw [hkey] at hk
      simp [truthy] at hk
      simp [run_posthog_sql, resolveConfig, truthy, hkey, h, hk]
  · intro env insightId resp h
    simp [get_posthog_insight, resolveConfig, h, truthy]
  · intro env insightId resp hk h
    cases hkey : env.POSTHOG_API_KEY with
    | none => rw [hkey] at hk; simp [truthy] at hk
    | some s =>
      rw [hkey] at hk
      simp [truthy] at hk
      simp [get_posthog_insight, resolveConfig, truthy, hkey, h, hk]
  · intro env fetch fuel h
    simp [list_posthog_dashboards, resolveConfig, h, truthy]
  · intro env fetch fuel hk h
    cases hkey : env.POSTHOG_API_KEY with
    | none => rw [hkey] at hk; simp [truthy] at hk
    | some s =>
      rw [hkey] at hk
      simp [truthy] at hk
      simp [list_posthog_dashboards, resolveConfig, truthy, hkey, h, hk]
  · intro env hh hk hp
    cases hkey : env.POSTHOG_API_KEY with
    | none => rw [hkey] at hk; simp [truthy] at hk
    | some s =>
      cases hproj : env.POSTHOG_PROJECT_ID with
      | none => rw [hproj] at hp; simp [truthy] at hp
      | some p =>
        rw [hkey] at hk
        rw [hproj] at hp
        simp [truthy] at hk hp
        simp [resolveConfig, truthy, hkey, hproj, hk, hp, resolveHost, hh]

/-- An environment missing both required variables. -/
def envNone : Env := ⟨none, none, none⟩

/-- An environment with only the API key set. -/
def envKeyOnly : Env := ⟨some "key", none, none⟩

/-- Witness for `c8_missing_config` at concrete environments; when both
variables are missing the API-key message wins (checked first). -/
theorem c8_missing_config_witness :
    run_posthog_sql envNone "q" (.okData {})
        = .error "POSTHOG_API_KEY environment variable is required" ∧
    run_posthog_sql envKeyOnly "q" (.okData {})
        = .error "POSTHOG_PROJECT_ID environment variable is required" ∧
    get_posthog_insight envNone 1 (.okData {})
        = .error "POSTHOG_API_KEY environment variable is required" ∧
    list_posthog_dashboards envKeyOnly (fun _ => .okData {}) 5
        = some (.error "POSTHOG_PROJECT_ID environment variable is required") ∧
    resolveConfig envFull = .ok ⟨"key", "proj", "us.posthog.com"⟩ := by
  refine ⟨c8_missing_config.1 envNone "q" _ rfl,
          c8_missing_config.2.1 envKeyOnly "q" _ (by decide) rfl,
          c8_missing_config.2.2.1 envNone 1 _ rfl,
          c8_missing_config.2.2.2.2.2.1 envKeyOnly _ 5 (by decide) rfl,
          ?_⟩
  have := c8_missing_config.2.2.2.2.2.2 envFull rfl (by decide) (by decide)
  simpa using this

/-! ## Claim C9 : present-but-empty configuration values -/

/-- C9: a required variable set to the empty string is rejected exactly
as if it were absent (the guards are truthiness checks), with the same
message, for every transport response; and an empty `POSTHOG_HOST`
falls back to the default host.  The last three conjuncts state the
"exactly as if absent" part: config resolution cannot distinguish an
empty value from a missing one. -/
theorem c9_empty_string_config :
    (∀ (env : Env) (sql : String) (resp : UpstreamResult PostHogAPIResponse),
        env.POSTHOG_API_KEY = some "" →
        run_posthog_sql env sql resp
          = .error "POSTHOG_API_KEY environment variable is required") ∧
    (∀ (env : Env) (sql : String) (resp : UpstreamResult PostHogAPIResponse),
        truthy env.POSTHOG_API_KEY = true → env.POSTHOG_PROJECT_ID = some "" →
        run_posthog_sql env sql resp
          = .error "POSTHOG_PROJECT_ID environment variable is required") ∧
    (∀ (env : Env) (insightId : Int) (resp : UpstreamResult PostHogInsightResponse),
        env.POSTHOG_API_KEY = some "" →
        get_posthog_insight env insightId resp
          = .error "POSTHOG_API_KEY environment variable is required") ∧
    (∀ (env : Env) (insightId : Int) (resp : UpstreamResult PostHogInsightResponse),
        truthy env.POSTHOG_API_KEY = true → env.POSTHOG_PROJECT_ID = some "" →
        get_posthog_insight env insightId resp
          = .error "POSTHOG_PROJECT_ID environment variable is required") ∧
    (∀ (env : Env) (fetch : String → UpstreamResult PostHogDashboardListResponse) (fuel : Nat),
        env.POSTHOG_API_KEY = some "" →
        list_posthog_dashboards env fetch fuel
          = some (.error "POSTHOG_API_KEY environment variable is required")) ∧
    (∀ (env : Env) (fetch : String → UpstreamResult PostHogDashboardListResponse) (fuel : Nat),
        truthy env.POSTHOG_API_KEY = true → env.POSTHOG_PROJECT_ID = some "" →
        list_posthog_dashboards env fetch fuel
          = some (.error "POSTHOG_PROJECT_ID environment variable is required")) ∧
    (∀ env : Env, env.POSTHOG_HOST = some "" →
        truthy env.POSTHOG_API_KEY = true → truthy env.POSTHOG_PROJECT_ID = true →
        resolveConfig env = .ok ⟨env.POSTHOG_API_KEY.getD "", env.POSTHOG_PROJECT_ID.getD "",
                                 "us.posthog.com"⟩) ∧
    (∀ env : Env, resolveConfig { env with POSTHOG_API_KEY := some "" }
        = resolveConfig { env with POSTHOG_API_KEY := none }) ∧
    (∀ env : Env, resolveConfig { env with POSTHOG_PROJECT_ID := some "" }
        = resolveConfig { env with POSTHOG_PROJECT_ID := none }) ∧
    (∀ env : Env, resolveConfig { env with POSTHOG_HOST := some "" }
        = resolveConfig { env with POSTHOG_HOST := none }) := by
  refine ⟨?_, ?_, ?_, ?_, ?_, ?_, ?_, ?_, ?_, ?_⟩
  · intro env sql resp h
    simp [run_posthog_sql, resolveConfig, h, truthy]
  · intro env sql resp hk h
    cases hkey : env.POSTHOG_API_KEY with
    | none => rw [hkey] at hk; simp [truthy] at hk
    | some s =>
      rw [hkey] at hk
      simp [truthy] at hk
      simp [run_posthog_sql, resolveConfig, truthy, hkey, h, hk]
  · intro env insightId resp h
    simp [get_posthog_insight, resolveConfig, h, truthy]
  · intro env insightId resp hk h
    cases hkey : env.POSTHOG_API_KEY with
    | none => rw [hkey] at hk; simp [truthy] at hk
    | some s =>
      rw [hkey] at hk
      simp [truthy] at hk
      simp [get_posthog_insight, resolveConfig, truthy, hkey, h, hk]
  · intro env fetch fuel h
    simp [list_posthog_dashboards, resolveConfig, h, truthy]
  · intro env fetch fuel hk h
    cases hkey : env.POSTHOG_API_KEY with
    | none => rw [hkey] at hk; simp [truthy] at hk
    | some s =>
      rw [hkey] at hk
      simp [truthy] at hk
      simp [list_posthog_dashboards, resolveConfig, truthy, hkey, h, hk]
  · intro env hh hk hp
    cases hkey : env.POSTHOG_API_KEY with
    | none => rw [hkey] at hk; simp [truthy] at hk
    | some s =>
      cases hproj : env.POSTHOG_PROJECT_ID with
      | none => rw [hproj] at hp; simp [truthy] at hp
      | some p =>
        rw [hkey] at hk
        rw [hproj] at hp
        simp [truthy] at hk hp
        simp [resolveConfig, truthy, hkey, hproj, hk, hp, resolveHost, hh]
  · intro env
    simp [resolveConfig, truthy]
  · intro env
    simp [resolveConfig, truthy]
  · intro env
    simp [resolveConfig, truthy, resolveHost]

/-- An environment whose API key is the empty string. -/
def envEmptyKey : Env := ⟨some "", some "proj", none⟩

/-- An environment whose host is the empty string. -/
def envEmptyHost : Env := ⟨some "key", some "proj", some ""⟩

/-- Witness for `c9_empty_string_config` at concrete environments. -/
theorem c9_empty_string_config_witness :
    run_posthog_sql envEmptyKey "q" (.okData {})
        = .error "POSTHOG_API_KEY environment variable is required" ∧
    resolveConfig envEmptyHost = .ok ⟨"key", "proj", "us.posthog.com"⟩ ∧
    resolveConfig { envFull with POSTHOG_HOST := some "" }
        = resolveConfig { envFull with POSTHOG_HOST := none } := by
  refine ⟨c9_empty_string_config.1 envEmptyKey "q" _ rfl, ?_,
          c9_empty_string_config.2.2.2.2.2.2.2.2.2 envFull⟩
  have := c9_empty_string_config.2.2.2.2.2.2.1 envEmptyHost rfl (by decide) (by decide)
  simpa using this

/-! ## Claim C2 : pagination -/

/-- The summaries one page contributes to the accumulator. -/
def pageMapped (p : PostHogDashboardListResponse) : List DashboardSummary :=
  (p.results.getD []).map mapDashboard

/-- Running the loop from page `i` of a properly linked page chain
(whose link URLs are nonempty, hence truthy) appends the remaining
pages' mapped results, in order, performing one fetch per remaining
page. -/
theorem listLoop_chain
    (fetch : String → UpstreamResult PostHogDashboardListResponse)
    (pages : List PostHogDashboardListResponse) (urls : Nat → String)
    (hurls : ∀ i, urls i ≠ "")
    (hfetch : ∀ i (h : i < pages.length), fetch (urls i) = .okData (pages.get ⟨i, h⟩))
    (hnext : ∀ i (h : i < pages.length), (pages.get ⟨i, h⟩).next
        = if i + 1 < pages.length then some (urls (i + 1)) else none) :
    ∀ (fuel i : Nat) (hi : i < pages.length) (acc : List DashboardSummary),
      pages.length - i ≤ fuel →
      listLoop fetch fuel (urls i) acc
        = some (.ok (acc ++ (pages.drop i).flatMap pageMapped, pages.length - i)) := by
  intro fuel
  induction fuel with
  | zero => intro i hi acc hfuel; omega
  | succ fuel ih =>
    intro i hi acc hfuel
    have hdrop := List.drop_eq_getElem_cons hi
    simp only [List.get_eq_getElem] at hfetch hnext
    have hnx := hnext i hi
    by_cases hlt : i + 1 < pages.length
    · rw [if_pos hlt] at hnx
      have hbne : (urls (i + 1) != "") = true := by simpa using hurls (i + 1)
      have hrec := ih (i + 1) hlt (acc ++ pageMapped pages[i]) (by omega)
      simp only [pageMapped] at hrec
      simp only [listLoop, hfetch i hi, hnx, hbne, if_true, hrec]
      simp only [Option.some.injEq, Except.ok.injEq, Prod.mk.injEq]
      constructor
      · rw [hdrop, List.flatMap_cons]
        simp [pageMapped, List.append_assoc]
      · omega
    · rw [if_neg hlt] at hnx
      have hi1 : i + 1 = pages.length := by omega
      have hdrop1 : pages.drop (i + 1) = [] := by
        rw [hi1]
        exact List.drop_length pages
      simp only [listLoop, hfetch i hi, hnx]
      simp only [Option.some.injEq, Except.ok.injEq, Prod.mk.injEq]
      constructor
      · rw [hdrop, List.flatMap_cons, hdrop1]
        simp [pageMapped]
      · omega

/-- C2: with `N` upstream pages whose `next` fields link each page to
the following one (by a nonempty, hence truthy, URL) and the last
page's `next` absent, the lister performs exactly `N` fetches (any
fuel of at least `N` iterations suffices and yields the fetch count
`N`), returns the in-order concatenation of the pages' mapped
`results` with `totalCount` equal to the sum of the pages' `results`
lengths; and the loop imposes no cap of its own: against an upstream
that always supplies a truthy `next`, no amount of fuel makes it
terminate. -/
theorem c2_pagination :
    (∀ (env : Env) (cfg : Config), resolveConfig env = .ok cfg →
      ∀ (fetch : String → UpstreamResult PostHogDashboardListResponse)
        (pages : List PostHogDashboardListResponse) (urls : Nat → String),
        pages ≠ [] →
        (∀ i, urls i ≠ "") →
        urls 0 = dashboardsUrl cfg →
        (∀ i (h : i < pages.length), fetch (urls i) = .okData (pages.get ⟨i, h⟩)) →
        (∀ i (h : i < pages.length), (pages.get ⟨i, h⟩).next
            = if i + 1 < pages.length then some (urls (i + 1)) else none) →
        ∀ fuel, pages.length ≤ fuel →
          listLoop fetch fuel (dashboardsUrl cfg) []
            = some (.ok (pages.flatMap pageMapped, pages.length)) ∧
          list_posthog_dashboards env fetch fuel
            = some (.ok ⟨pages.flatMap pageMapped, (pages.flatMap pageMapped).length⟩) ∧
          (pages.flatMap pageMapped).length
            = (pages.map (fun p => (p.results.getD []).length)).sum) ∧
    (∀ fetch : String → UpstreamResult PostHogDashboardListResponse,
        (∀ url, ∃ page, fetch url = .okData page ∧ truthy page.next = true) →
        ∀ (fuel : Nat) (url : String) (acc : List DashboardSummary),
          listLoop fetch fuel url acc = none) := by
  constructor
  · intro env cfg hcfg fetch pages urls hne hurls hstart hfetch hnext fuel hfuel
    have hloop := listLoop_chain fetch pages urls hurls hfetch hnext fuel 0
      (List.length_pos.mpr hne) [] (by omega)
    rw [hstart] at hloop
    simp only [List.drop_zero, List.nil_append, Nat.sub_zero] at hloop
    refine ⟨hloop, ?_, ?_⟩
    · simp only [list_posthog_dashboards, hcfg, hloop]
    · rw [List.length_flatMap]
      congr 1
      apply List.map_congr_left
      intro p _
      simp [pageMapped]
  · intro fetch hinf fuel
    induction fuel with
    | zero => intro url acc; rfl
    | succ fuel ih =>
      intro url acc
      obtain ⟨page, hfetch, htr⟩ := hinf url
      cases hnxt : page.next with
      | none => rw [hnxt] at htr; simp [truthy] at htr
      | some nxt =>
        rw [hnxt] at htr
        have hbne : (nxt != "") = true := by simpa [truthy] using htr
        simp only [listLoop, hfetch, hnxt, hbne, if_true]
        rw [ih]

/-- A two-page chain for the C2 witness. -/
def examplePage0 : PostHogDashboardListResponse :=
  { next := some "page1", results := some [{ id := 1 }, { id := 2 }] }

/-- Second page of the chain (`next` absent). -/
def examplePage1 : PostHogDashboardListResponse :=
  { results := some [{ id := 3 }] }

/-- The transport of the C2 witness: serves the two-page chain from
the dashboards URL of `cfgFull`, and an endless chain elsewhere. -/
def exampleFetch (url : String) : UpstreamResult PostHogDashboardListResponse :=
  if url = dashboardsUrl cfgFull then .okData examplePage0
  else if url = "page1" then .okData examplePage1
  else .okData { next := some "loop" }

/-- The endless transport of the C2 witness: every page links onward. -/
def endlessFetch (_url : String) : UpstreamResult PostHogDashboardListResponse :=
  .okData { next := some "loop" }

/-- Witness for `c2_pagination`: the concrete two-page chain is fully
aggregated with `totalCount = 3` in exactly two fetches, and the
endless upstream never lets the loop finish. -/
theorem c2_pagination_witness :
    list_posthog_dashboards envFull exampleFetch 2
      = some (.ok ⟨[examplePage0, examplePage1].flatMap pageMapped,
                   ([examplePage0, examplePage1].flatMap pageMapped).length⟩) ∧
    listLoop exampleFetch 2 (dashboardsUrl cfgFull) []
      = some (.ok ([examplePage0, examplePage1].flatMap pageMapped, 2)) ∧
    listLoop endlessFetch 5 "start" [] = none := by
  have h := c2_pagination.1 envFull cfgFull rfl exampleFetch
    [examplePage0, examplePage1]
    (fun i => if i = 0 then dashboardsUrl cfgFull else "page1")
    (by simp)
    (by
      intro i
      by_cases hi : i = 0 <;> simp [hi] <;> decide)
    rfl
    (by
      intro i hi
      match i, hi with
      | 0, _ => rfl
      | 1, _ => rfl)
    (by
      intro i hi
      match i, hi with
      | 0, _ => rfl
      | 1, _ => rfl)
    2 (by simp)
  have hinf := c2_pagination.2 endlessFetch
    (fun url => ⟨{ next := some "loop" }, rfl, rfl⟩) 5 "start" []
  exact ⟨h.2.1, h.1, hinf⟩
